import Mathlib

/-
Verification of the gesture-based media controller
(src/gesture_media_control.py).

The per-frame decision pipeline is embedded shallowly:

* gesture labels are the source's strings ("OPEN_PALM", "FIST", "THUMB_UP",
  "POINT", "UNKNOWN"); landmark coordinates and timestamps are modelled as
  rationals (the source uses Python floats; every comparison in the source is
  a plain order comparison, so the logical structure is unchanged);
* `fingers_up` and `detect_gesture` are the source's pure functions;
* `perform_action_for_gesture` returns the HUD description string and `none`
  for an unrecognised gesture; the keyboard side effects are external
  collaborators and are abstracted away, exactly as the spec scopes them out;
* the mutable loop state (`gesture_history` deque with maxlen
  SMOOTHING_FRAMES, `last_action_time`, `last_triggered`) becomes the
  `LoopState` record, and one iteration of the frame loop becomes the pure
  step functions below, returning the optional dispatched action of that
  frame as a `FireEvent`.
-/

/- The arithmetic of `Rat` in the support library is marked irreducible only
to keep `simp`-normal forms readable; re-marking it semireducible lets
`decide` evaluate concrete runs of the pipeline.  This changes elaboration
only, not the trusted kernel. -/
set_option allowUnsafeReducibility true in
attribute [semireducible] Rat.sub Rat.add Rat.mul Rat.inv Rat.ofScientific

/-- Settings (source lines 30-31): require the same gesture for N frames. -/
def SMOOTHING_FRAMES : Nat := 6

/-- Seconds between actions (source line 31). -/
def ACTION_COOLDOWN : ℚ := 0.8

/-- Tip landmark indices (source line 34). -/
def TIP_IDS : List Nat := [4, 8, 12, 16, 20]

/-- One MediaPipe hand landmark: a point in normalized coordinates.  Only the
x and y fields are read by the source. -/
structure Landmark where
  x : ℚ
  y : ℚ

/-- The per-frame hand observation delivered by the pose model: either no
hand, or one hand's 21 landmarks (indexed 0..20, modelled as a total
function) together with the handedness label string. -/
inductive HandObservation where
  | Absent : HandObservation
  | Present (landmark : Nat → Landmark) (handedness_label : String) : HandObservation

/-- Source `fingers_up` (lines 41-52): thumb by an x comparison whose
direction depends on the handedness label (the source tests
`handedness_label == "Right"` and treats everything else as a left hand);
the other four fingers by tip.y < pip.y; the booleans are converted to
0/1 integers. -/
def fingers_up (landmark : Nat → Landmark) (handedness_label : String) : List Nat :=
  let thumb : Bool :=
    if handedness_label = "Right" then
      decide ((landmark 4).x < (landmark 3).x)
    else
      decide ((landmark 4).x > (landmark 3).x)
  let fingers : List Bool :=
    thumb :: (TIP_IDS.drop 1).map (fun i => decide ((landmark i).y < (landmark (i - 2)).y))
  fingers.map (fun f => if f then 1 else 0)

/-- Source `detect_gesture` (lines 54-65): exact pattern match on the
0/1 finger vector, `"UNKNOWN"` otherwise. -/
def detect_gesture (fingers : List Nat) : String :=
  if fingers = [1, 1, 1, 1, 1] then "OPEN_PALM"
  else if fingers = [0, 0, 0, 0, 0] then "FIST"
  else if fingers = [1, 0, 0, 0, 0] then "THUMB_UP"
  else if fingers = [0, 1, 0, 0, 0] then "POINT"
  else "UNKNOWN"

/-- Source `perform_action_for_gesture` (lines 102-139): maps a gesture to
the description of the action performed, `none` for everything else.  The
actual key injection (`press_media_key_if_available` / `press_key_fallback`)
is an external collaborator whose failures are swallowed, so the returned
description is all that reaches the loop's state. -/
def perform_action_for_gesture (gesture_name : String) : Option String :=
  if gesture_name = "OPEN_PALM" then some "Play/Pause"
  else if gesture_name = "FIST" then some "Previous Track"
  else if gesture_name = "POINT" then some "Next Track"
  else if gesture_name = "THUMB_UP" then some "Volume Up"
  else none

/-- `deque(maxlen=SMOOTHING_FRAMES)` append (source line 183/199): push on
the right, evicting from the left whatever exceeds the capacity. -/
def pushWindow (history : List String) (g : String) : List String :=
  let h := history ++ [g]
  if SMOOTHING_FRAMES < h.length then h.drop (h.length - SMOOTHING_FRAMES) else h

/-- Source line 184, `Counter(gesture_history).most_common(1)[0]`: the
(element, count) pair with the greatest multiplicity; on ties `Counter`
keeps the element whose first occurrence comes first, which is exactly what
folding left-to-right with a strict `<` on the running best achieves (a
later duplicate or a tying element never displaces the current best).  On
the empty window Python would raise; the loop always pushes before reading,
so the `("UNKNOWN", 0)` seed is never the result for the lists that occur. -/
def mostCommon (w : List String) : String × Nat :=
  w.foldl (fun best g => if best.2 < w.count g then (g, w.count g) else best) ("UNKNOWN", 0)

/-- Source line 185: `stable = (most_common != "UNKNOWN") and
(count == gesture_history.maxlen)`, packaged as the optional stable
gesture. -/
def debounceStable (w : List String) : Option String :=
  if (mostCommon w).1 ≠ "UNKNOWN" ∧ (mostCommon w).2 = SMOOTHING_FRAMES then
    some (mostCommon w).1
  else none

/-- The session-lifetime mutable state of the loop (source lines 148-150). -/
structure LoopState where
  gesture_history : List String
  last_action_time : ℚ
  last_triggered : Option String
deriving DecidableEq

/-- One dispatched action: the frame timestamp, the gesture that fired and
the description returned by `perform_action_for_gesture`. -/
structure FireEvent where
  time : ℚ
  gesture : String
  desc : String
deriving DecidableEq

/-- Initial state (source lines 148-150): empty deque, `last_action_time = 0`
(a plain integer zero, not an "unset" marker), `last_triggered = None`. -/
def initState : LoopState :=
  { gesture_history := [], last_action_time := 0, last_triggered := none }

/-- One iteration of the frame loop for a frame whose hand was classified as
`gesture` (source lines 183-195): push into the window, compute the
most-common pair, and dispatch when the window is stable, the cooldown has
elapsed and the stable gesture differs from the last triggered one
(`most_common != last_triggered` compares a string against an optional
string, so an unset `last_triggered` compares unequal).  State is mutated
only when a describable action was performed. -/
def stepGesture (s : LoopState) (gesture : String) (now : ℚ) : LoopState × Option FireEvent :=
  let hist := pushWindow s.gesture_history gesture
  if ((mostCommon hist).1 ≠ "UNKNOWN" ∧ (mostCommon hist).2 = SMOOTHING_FRAMES) ∧
      now - s.last_action_time > ACTION_COOLDOWN then
    if some (mostCommon hist).1 ≠ s.last_triggered then
      match perform_action_for_gesture (mostCommon hist).1 with
      | some desc =>
          (⟨hist, now, some (mostCommon hist).1⟩, some ⟨now, (mostCommon hist).1, desc⟩)
      | none => (⟨hist, s.last_action_time, s.last_triggered⟩, none)
    else (⟨hist, s.last_action_time, s.last_triggered⟩, none)
  else (⟨hist, s.last_action_time, s.last_triggered⟩, none)

/-- One frame at the classified-gesture level: `some g` for a frame whose
present hand classified as `g`, `none` for a no-hand frame, which pushes
`"UNKNOWN"` and skips the dispatch block entirely (source lines 197-199). -/
def stepObs (s : LoopState) (g? : Option String) (now : ℚ) : LoopState × Option FireEvent :=
  match g? with
  | some g => stepGesture s g now
  | none => (⟨pushWindow s.gesture_history "UNKNOWN", s.last_action_time, s.last_triggered⟩, none)

/-- One frame of the full pipeline from the raw observation: a present hand
runs extractor → classifier → debouncer → dispatcher, an absent hand takes
the `else` branch of source lines 197-199. -/
def stepFrame (s : LoopState) (obs : HandObservation) (now : ℚ) : LoopState × Option FireEvent :=
  match obs with
  | .Present landmark label => stepGesture s (detect_gesture (fingers_up landmark label)) now
  | .Absent => (⟨pushWindow s.gesture_history "UNKNOWN", s.last_action_time, s.last_triggered⟩, none)

/-- Run the loop over a list of (classified gesture, timestamp) frames,
returning the final state and the list of dispatched actions in order. -/
def runFrames (s : LoopState) : List (Option String × ℚ) → LoopState × List FireEvent
  | [] => (s, [])
  | f :: rest =>
      ((runFrames (stepObs s f.1 f.2).1 rest).1,
        match (stepObs s f.1 f.2).2 with
        | some e => e :: (runFrames (stepObs s f.1 f.2).1 rest).2
        | none => (runFrames (stepObs s f.1 f.2).1 rest).2)

/-- Run the loop over raw observations, keeping the final state. -/
def runObs (s : LoopState) : List (HandObservation × ℚ) → LoopState
  | [] => s
  | f :: rest => runObs (stepFrame s f.1 f.2).1 rest

/-- The five gesture labels of the data model. -/
def gestureLabels : List String := ["OPEN_PALM", "FIST", "THUMB_UP", "POINT", "UNKNOWN"]

/-- The last `n` elements of a list (the contents of a maxlen-`n` deque). -/
def lastN (n : Nat) (l : List String) : List String := l.drop (l.length - n)

/-- The finger-state vector as §4.1 of the spec words it: thumb extended iff
(Right and tip.x < joint.x) or (Left and tip.x > joint.x); every other
finger extended iff tip.y < pip.y; strict comparisons throughout. -/
def fingersSpec (landmark : Nat → Landmark) (handedness_label : String) : List Nat :=
  [if (handedness_label = "Right" ∧ (landmark 4).x < (landmark 3).x) ∨
      (handedness_label = "Left" ∧ (landmark 4).x > (landmark 3).x) then 1 else 0,
   if (landmark 8).y < (landmark 6).y then 1 else 0,
   if (landmark 12).y < (landmark 10).y then 1 else 0,
   if (landmark 16).y < (landmark 14).y then 1 else 0,
   if (landmark 20).y < (landmark 18).y then 1 else 0]

/-- A concrete landmark assignment: landmark i at (-i, i).  For a right hand
the thumb tip x (-4) is left of the joint x (-3) and every other tip y lies
below its pip y, so it classifies as THUMB_UP. -/
def lmW : Nat → Landmark := fun n => ⟨-(n : ℚ), (n : ℚ)⟩

/-- Booleans to 0/1 as `fingers_up` converts them. -/
def b2i (b : Bool) : Nat := if b then 1 else 0

/-- Scenario frames for the re-fire suppression test of §8 of the spec:
OPEN_PALM for 2N frames, FIST for N, OPEN_PALM for N again, one frame per
second. -/
def refireFrames : List (Option String × ℚ) :=
  [(some "OPEN_PALM", 1), (some "OPEN_PALM", 2), (some "OPEN_PALM", 3),
   (some "OPEN_PALM", 4), (some "OPEN_PALM", 5), (some "OPEN_PALM", 6),
   (some "OPEN_PALM", 7), (some "OPEN_PALM", 8), (some "OPEN_PALM", 9),
   (some "OPEN_PALM", 10), (some "OPEN_PALM", 11), (some "OPEN_PALM", 12),
   (some "FIST", 13), (some "FIST", 14), (some "FIST", 15),
   (some "FIST", 16), (some "FIST", 17), (some "FIST", 18),
   (some "OPEN_PALM", 19), (some "OPEN_PALM", 20), (some "OPEN_PALM", 21),
   (some "OPEN_PALM", 22), (some "OPEN_PALM", 23), (some "OPEN_PALM", 24)]

/-- Twelve frames: six stable OPEN_PALM seconds then six stable FIST
seconds. -/
def cooldownFrames : List (Option String × ℚ) :=
  [(some "OPEN_PALM", 1), (some "OPEN_PALM", 2), (some "OPEN_PALM", 3),
   (some "OPEN_PALM", 4), (some "OPEN_PALM", 5), (some "OPEN_PALM", 6),
   (some "FIST", 7), (some "FIST", 8), (some "FIST", 9),
   (some "FIST", 10), (some "FIST", 11), (some "FIST", 12)]

/-- Five OPEN_PALM frames with timestamps below the cooldown, as would occur
if the clock started at zero. -/
def earlyFrames : List (Option String × ℚ) :=
  [(some "OPEN_PALM", 1/10), (some "OPEN_PALM", 2/10), (some "OPEN_PALM", 3/10),
   (some "OPEN_PALM", 4/10), (some "OPEN_PALM", 5/10)]

-- ---------------------------------------------------------------------
-- Window algebra
-- ---------------------------------------------------------------------

theorem pushWindow_length_le (w : List String) (g : String) :
    (pushWindow w g).length ≤ SMOOTHING_FRAMES := by
  simp only [pushWindow]
  split
  next h => simp only [List.length_drop]; omega
  next h => omega

theorem pushWindow_mem (w : List String) (g x : String) (hx : x ∈ pushWindow w g) :
    x ∈ w ∨ x = g := by
  have hx' : x ∈ w ++ [g] := by
    simp only [pushWindow] at hx
    split at hx
    · exact List.drop_subset _ _ hx
    · exact hx
  simpa using hx'

theorem lastN_of_length_le (n : Nat) (l : List String) (h : l.length ≤ n) :
    lastN n l = l := by
  unfold lastN
  rw [Nat.sub_eq_zero_of_le h, List.drop_zero]

theorem lastN_cons_of_le (n : Nat) (x : String) (l : List String) (h : n ≤ l.length) :
    lastN n (x :: l) = lastN n l := by
  unfold lastN
  have hlen : (x :: l).length - n = (l.length - n) + 1 := by
    simp only [List.length_cons]; omega
  rw [hlen, List.drop_succ_cons]

theorem pushWindow_eq_lastN (w : List String) (g : String) :
    pushWindow w g = lastN SMOOTHING_FRAMES (w ++ [g]) := by
  simp only [pushWindow, lastN]
  split
  next h => rfl
  next h => rw [Nat.sub_eq_zero_of_le (by omega), List.drop_zero]

theorem lastN_append_lastN (n : Nat) (a b : List String) :
    lastN n (lastN n a ++ b) = lastN n (a ++ b) := by
  induction a with
  | nil => simp [lastN]
  | cons x a ih =>
    by_cases h : a.length < n
    · rw [lastN_of_length_le n (x :: a) (by simp only [List.length_cons]; omega)]
    · have h' : n ≤ a.length := Nat.le_of_not_lt h
      rw [lastN_cons_of_le n x a h', List.cons_append,
        lastN_cons_of_le n x (a ++ b) (by simp only [List.length_append]; omega)]
      exact ih

theorem lastN_append_right (n : Nat) (a b : List String) (h : n ≤ b.length) :
    lastN n (a ++ b) = lastN n b := by
  induction a with
  | nil => rfl
  | cons x a ih =>
    rw [List.cons_append,
      lastN_cons_of_le n x (a ++ b) (by simp only [List.length_append]; omega)]
    exact ih

theorem foldl_pushWindow_eq (ys : List String) :
    ∀ w : List String, w.length ≤ SMOOTHING_FRAMES →
      List.foldl pushWindow w ys = lastN SMOOTHING_FRAMES (w ++ ys) := by
  induction ys with
  | nil =>
    intro w hw
    rw [List.foldl_nil, List.append_nil, lastN_of_length_le _ _ hw]
  | cons y ys ih =>
    intro w hw
    rw [List.foldl_cons, ih _ (pushWindow_length_le w y), pushWindow_eq_lastN,
      lastN_append_lastN]
    congr 1
    simp

-- ---------------------------------------------------------------------
-- The most-common count and the unanimity characterisation of stability
-- ---------------------------------------------------------------------

theorem mostCommon_foldl_inv (w : List String) (l : List String) (b : String × Nat)
    (hb : b.2 = 0 ∨ b.2 = w.count b.1) :
    (l.foldl (fun best g => if best.2 < w.count g then (g, w.count g) else best) b).2 = 0 ∨
      (l.foldl (fun best g => if best.2 < w.count g then (g, w.count g) else best) b).2 =
        w.count (l.foldl (fun best g => if best.2 < w.count g then (g, w.count g) else best) b).1 := by
  induction l generalizing b with
  | nil => exact hb
  | cons g rest ih =>
    rw [List.foldl_cons]
    by_cases h : b.2 < w.count g
    · rw [if_pos h]; exact ih _ (Or.inr rfl)
    · rw [if_neg h]; exact ih _ hb

theorem mostCommon_snd (w : List String) :
    (mostCommon w).2 = 0 ∨ (mostCommon w).2 = w.count (mostCommon w).1 :=
  mostCommon_foldl_inv w w ("UNKNOWN", 0) (Or.inl rfl)

theorem mostCommon_foldl_fix (w : List String) (g : String) (n : Nat) (b : String × Nat)
    (hb : ¬ b.2 < w.count g) :
    (List.replicate n g).foldl
      (fun best x => if best.2 < w.count x then (x, w.count x) else best) b = b := by
  induction n with
  | zero => rfl
  | succ n ih => rw [List.replicate_succ, List.foldl_cons, if_neg hb]; exact ih

theorem mostCommon_replicate (g : String) (m : Nat) :
    mostCommon (List.replicate (m + 1) g) = (g, m + 1) := by
  unfold mostCommon
  rw [List.replicate_succ, List.foldl_cons]
  have hc : (g :: List.replicate m g).count g = m + 1 := by
    rw [List.count_cons_self, List.count_replicate_self]
  rw [hc, if_pos (Nat.succ_pos m)]
  exact mostCommon_foldl_fix (g :: List.replicate m g) g m (g, m + 1)
    (by rw [hc]; omega)

theorem debounceStable_eq_some_iff (w : List String) (g : String)
    (hw : w.length ≤ SMOOTHING_FRAMES) :
    debounceStable w = some g ↔
      (w.length = SMOOTHING_FRAMES ∧ (∀ x ∈ w, x = g) ∧ g ≠ "UNKNOWN") := by
  constructor
  · intro h
    unfold debounceStable at h
    split at h
    next hc =>
      obtain ⟨hne, hcnt⟩ := hc
      obtain rfl : (mostCommon w).1 = g := Option.some.inj h
      rcases mostCommon_snd w with h0 | hcount
    
      · rw [hcnt] at h0; exact absurd h0 (by decide)
      · have hle : w.count (mostCommon w).1 ≤ w.length := List.count_le_length _ _
        rw [← hcount, hcnt] at hle
        have hlen : w.length = SMOOTHING_FRAMES := le_antisymm hw hle
        have hcl : w.count (mostCommon w).1 = w.length := by
          rw [← hcount, hcnt, hlen]
        refine ⟨hlen, ?_, hne⟩
        intro x hx
        exact (List.count_eq_length.mp hcl x hx).symm
    next => exact absurd h (by simp)
  · rintro ⟨hlen, hall, hne⟩
    have hrep : w = List.replicate SMOOTHING_FRAMES g :=
      List.eq_replicate_iff.mpr ⟨hlen, hall⟩
    rw [hrep]
    unfold debounceStable
    rw [show SMOOTHING_FRAMES = 5 + 1 from rfl, mostCommon_replicate]
    exact if_pos ⟨hne, rfl⟩

-- ---------------------------------------------------------------------
-- What one dispatcher step can do
-- ---------------------------------------------------------------------

theorem perform_action_mem (g d : String) (h : perform_action_for_gesture g = some d) :
    g ∈ ["OPEN_PALM", "FIST", "THUMB_UP", "POINT"] := by
  unfold perform_action_for_gesture at h
  split_ifs at h with h1 h2 h3 h4
  · subst h1; decide
  · subst h2; decide
  · subst h3; decide
  · subst h4; decide

theorem stepGesture_gesture_history (s : LoopState) (g : String) (now : ℚ) :
    (stepGesture s g now).1.gesture_history = pushWindow s.gesture_history g := by
  simp only [stepGesture]
  split
  · split
    · split <;> rfl
    · rfl
  · rfl

theorem stepGesture_spec (s : LoopState) (g : String) (now : ℚ) :
    ((stepGesture s g now).1.last_action_time = s.last_action_time ∧
      (stepGesture s g now).1.last_triggered = s.last_triggered ∧
      (stepGesture s g now).2 = none) ∨
    (∃ g' d, debounceStable (pushWindow s.gesture_history g) = some g' ∧
      ACTION_COOLDOWN < now - s.last_action_time ∧
      s.last_triggered ≠ some g' ∧
      perform_action_for_gesture g' = some d ∧
      (stepGesture s g now).1.last_action_time = now ∧
      (stepGesture s g now).1.last_triggered = some g' ∧
      (stepGesture s g now).2 = some ⟨now, g', d⟩) := by
  simp only [stepGesture]
  split
  next hc =>
    obtain ⟨hstable, hcool⟩ := hc
    split
    next hdiff =>
      split
      next d hd =>
        right
        refine ⟨(mostCommon (pushWindow s.gesture_history g)).1, d, ?_, hcool,
          fun hco => hdiff hco.symm, hd, rfl, rfl, rfl⟩
        unfold debounceStable
        exact if_pos hstable
      next hd => exact Or.inl ⟨rfl, rfl, rfl⟩
    next => exact Or.inl ⟨rfl, rfl, rfl⟩
  next => exact Or.inl ⟨rfl, rfl, rfl⟩

-- ---------------------------------------------------------------------
-- Properties of whole runs
-- ---------------------------------------------------------------------

theorem runFrames_head_spec (frames : List (Option String × ℚ)) :
    ∀ (s : LoopState) (e : FireEvent), (runFrames s frames).2.head? = some e →
      ACTION_COOLDOWN < e.time - s.last_action_time ∧ s.last_triggered ≠ some e.gesture := by
  induction frames with
  | nil => intro s e h; simp [runFrames] at h
  | cons f rest ih =>
    intro s e h
    rcases hf : f.1 with _ | g
    · rw [show runFrames s (f :: rest) =
          ((runFrames (stepObs s f.1 f.2).1 rest).1,
            match (stepObs s f.1 f.2).2 with
            | some e => e :: (runFrames (stepObs s f.1 f.2).1 rest).2
            | none => (runFrames (stepObs s f.1 f.2).1 rest).2) from rfl, hf] at h
      simp only [stepObs] at h
      exact ih ⟨pushWindow s.gesture_history "UNKNOWN", s.last_action_time, s.last_triggered⟩ e h
    · rw [show runFrames s (f :: rest) =
          ((runFrames (stepObs s f.1 f.2).1 rest).1,
            match (stepObs s f.1 f.2).2 with
            | some e => e :: (runFrames (stepObs s f.1 f.2).1 rest).2
            | none => (runFrames (stepObs s f.1 f.2).1 rest).2) from rfl, hf] at h
      simp only [stepObs] at h
      rcases stepGesture_spec s g f.2 with ⟨hlat, hltr, h2⟩ | ⟨g', d, _, hcool, hne, _, hlat, hltr, h2⟩
      · rw [h2] at h
        have := ih _ e h
        rw [hlat, hltr] at this
        exact this
      · rw [h2] at h
        simp only [List.head?_cons, Option.some.injEq] at h
        subst h
        exact ⟨hcool, hne⟩

theorem runFrames_chain (frames : List (Option String × ℚ)) :
    ∀ s : LoopState,
      List.Chain' (fun e1 e2 : FireEvent =>
        ACTION_COOLDOWN < e2.time - e1.time ∧ e2.gesture ≠ e1.gesture)
        (runFrames s frames).2 := by
  induction frames with
  | nil => intro s; simp [runFrames]
  | cons f rest ih =>
    intro s
    rcases hf : f.1 with _ | g
    · rw [show runFrames s (f :: rest) =
          ((runFrames (stepObs s f.1 f.2).1 rest).1,
            match (stepObs s f.1 f.2).2 with
            | some e => e :: (runFrames (stepObs s f.1 f.2).1 rest).2
            | none => (runFrames (stepObs s f.1 f.2).1 rest).2) from rfl, hf]
      simp only [stepObs]
      exact ih _
    · rw [show runFrames s (f :: rest) =
          ((runFrames (stepObs s f.1 f.2).1 rest).1,
            match (stepObs s f.1 f.2).2 with
            | some e => e :: (runFrames (stepObs s f.1 f.2).1 rest).2
            | none => (runFrames (stepObs s f.1 f.2).1 rest).2) from rfl, hf]
      simp only [stepObs]
      rcases stepGesture_spec s g f.2 with ⟨_, _, h2⟩ | ⟨g', d, _, _, _, _, hlat, hltr, h2⟩
      · rw [h2]; exact ih _
      · rw [h2]
        rw [List.chain'_cons']
        refine ⟨?_, ih _⟩
        intro y hy
        have hhead := runFrames_head_spec rest (stepGesture s g f.2).1 y (Option.mem_def.mp hy)
        rw [hlat, hltr] at hhead
        refine ⟨hhead.1, ?_⟩
        intro hcontra
        exact hhead.2 (by rw [hcontra])

-- ---------------------------------------------------------------------
-- Claims
-- ---------------------------------------------------------------------

/-- C1: after pushing any label into any debounce window, the code's
most-common-count formulation (`most_common != "UNKNOWN" and
count == maxlen`) reports a stable gesture `stable_g` exactly when the
window holds SMOOTHING_FRAMES entries, every entry equals `stable_g`, and
`stable_g` is not UNKNOWN — strict unanimity over a full window. -/
theorem stable_iff_unanimous_full_window (w : List String) (g stable_g : String) :
    debounceStable (pushWindow w g) = some stable_g ↔
      ((pushWindow w g).length = SMOOTHING_FRAMES ∧
        (∀ x ∈ pushWindow w g, x = stable_g) ∧ stable_g ≠ "UNKNOWN") :=
  debounceStable_eq_some_iff (pushWindow w g) stable_g (pushWindow_length_le w g)

/-- C2: in any run of the frame loop with non-decreasing timestamps, each
dispatched action and the next dispatched action are separated by strictly
more than ACTION_COOLDOWN. -/
theorem dispatches_separated_by_cooldown (frames : List (Option String × ℚ))
    (_hmono : List.Chain' (fun f1 f2 : Option String × ℚ => f1.2 ≤ f2.2) frames) :
    List.Chain' (fun e1 e2 : FireEvent => ACTION_COOLDOWN < e2.time - e1.time)
      (runFrames initState frames).2 :=
  (runFrames_chain frames initState).imp (fun _ _ h => h.1)

/-- Witness for C2: the 12-frame OPEN_PALM-then-FIST scenario has
non-decreasing timestamps, and the theorem applies to it. -/
theorem dispatches_separated_by_cooldown_witness :
    List.Chain' (fun f1 f2 : Option String × ℚ => f1.2 ≤ f2.2) cooldownFrames ∧
    List.Chain' (fun e1 e2 : FireEvent => ACTION_COOLDOWN < e2.time - e1.time)
      (runFrames initState cooldownFrames).2 :=
  ⟨by norm_num [cooldownFrames, List.chain'_cons],
    dispatches_separated_by_cooldown cooldownFrames
      (by norm_num [cooldownFrames, List.chain'_cons])⟩

/-- C3: consecutive dispatched actions always carry different gestures, and
the first action dispatched from any state differs from that state's
last-triggered gesture — so once a gesture has fired it cannot fire again
until a different gesture has fired in between, no matter how long it stays
stable; concretely, OPEN_PALM for N frames fires Play/Pause, N more
OPEN_PALM frames fire nothing, N FIST frames fire Previous Track, and N
more OPEN_PALM frames fire Play/Pause again. -/
theorem no_refire_until_different_gesture :
    (∀ (s : LoopState) (frames : List (Option String × ℚ)),
        List.Chain' (fun e1 e2 : FireEvent => e2.gesture ≠ e1.gesture)
          (runFrames s frames).2 ∧
        ∀ e : FireEvent, (runFrames s frames).2.head? = some e →
          s.last_triggered ≠ some e.gesture) ∧
    (runFrames initState refireFrames).2 =
      [⟨6, "OPEN_PALM", "Play/Pause"⟩, ⟨18, "FIST", "Previous Track"⟩,
       ⟨24, "OPEN_PALM", "Play/Pause"⟩] := by
  refine ⟨fun s frames => ⟨(runFrames_chain frames s).imp (fun _ _ h => h.2),
    fun e he => (runFrames_head_spec frames s e he).2⟩, by decide⟩

/-- C5: the classifier is a pure exact-match total function on the 32
possible 0/1 finger vectors: the four listed patterns map to OPEN_PALM,
FIST, THUMB_UP and POINT, every other vector to UNKNOWN. -/
theorem detect_gesture_exact_table (t i m r p : Bool) :
    detect_gesture [b2i t, b2i i, b2i m, b2i r, b2i p] =
      if t && i && m && r && p then "OPEN_PALM"
      else if !t && !i && !m && !r && !p then "FIST"
      else if t && !i && !m && !r && !p then "THUMB_UP"
      else if !t && i && !m && !r && !p then "POINT"
      else "UNKNOWN" := by
  cases t <;> cases i <;> cases m <;> cases r <;> cases p <;> decide

/-- C4 counterexample: in the never-fired dispatch state (last_action_time
is the integer 0, last_triggered unset) — reachable from the initial state
by the five early OPEN_PALM frames — a sixth OPEN_PALM frame at now = 1/2
is stable yet dispatches nothing, because the code computes
elapsed = now - 0 and 1/2 is not greater than the 0.8 cooldown; hence a
stable gesture does not dispatch "regardless of the value of now". -/
theorem early_stable_gesture_not_dispatched :
    (runFrames initState earlyFrames).1 =
      ⟨List.replicate 5 "OPEN_PALM", 0, none⟩ ∧
    debounceStable (pushWindow (List.replicate 5 "OPEN_PALM") "OPEN_PALM") =
      some "OPEN_PALM" ∧
    (stepGesture ⟨List.replicate 5 "OPEN_PALM", 0, none⟩ "OPEN_PALM" (1/2)).2 = none := by
  decide

/-- C4 amended: when no action has ever fired (last_action_time = 0 and
last_triggered unset), a frame whose push yields a stable gesture with a
defined action dispatches exactly when now exceeds ACTION_COOLDOWN: the
initial timestamp is the plain value 0 rather than an "infinitely elapsed"
marker, so elapsed equals now itself (with real wall-clock timestamps this
is immediate in practice, but not for arbitrary now). -/
theorem never_fired_dispatch_iff_cooldown (w : List String) (g g' : String) (now : ℚ)
    (hstable : debounceStable (pushWindow w g) = some g')
    (hact : perform_action_for_gesture g' ≠ none) :
    (stepGesture ⟨w, 0, none⟩ g now).2 ≠ none ↔ ACTION_COOLDOWN < now := by
  obtain ⟨d, hd⟩ : ∃ d, perform_action_for_gesture g' = some d := by
    cases hpd : perform_action_for_gesture g' with
    | none => exact absurd hpd hact
    | some d => exact ⟨d, rfl⟩
  have hmc : (mostCommon (pushWindow w g)).1 = g' ∧
      ((mostCommon (pushWindow w g)).1 ≠ "UNKNOWN" ∧
        (mostCommon (pushWindow w g)).2 = SMOOTHING_FRAMES) := by
    unfold debounceStable at hstable
    split at hstable
    next hc => exact ⟨Option.some.inj hstable, hc⟩
    next => exact absurd hstable (by simp)
  simp only [stepGesture]
  by_cases hcool : ACTION_COOLDOWN < now
  · rw [if_pos ⟨hmc.2, show ACTION_COOLDOWN < now - (0 : ℚ) by rwa [sub_zero]⟩,
      if_pos (show some (mostCommon (pushWindow w g)).1 ≠ (none : Option String) by simp),
      hmc.1, hd]
    simpa using hcool
  · rw [if_neg]
    · simpa using hcool
    · rintro ⟨-, hc⟩
      rw [sub_zero] at hc
      exact hcool hc

/-- Witness for the amended C4: a full FIST window in the never-fired state
at now = 2. -/
theorem never_fired_dispatch_iff_cooldown_witness :
    (debounceStable (pushWindow (List.replicate 5 "FIST") "FIST") = some "FIST" ∧
      perform_action_for_gesture "FIST" ≠ none) ∧
    ((stepGesture ⟨List.replicate 5 "FIST", 0, none⟩ "FIST" 2).2 ≠ none ↔
      ACTION_COOLDOWN < 2) :=
  ⟨⟨by decide, by decide⟩,
    never_fired_dispatch_iff_cooldown (List.replicate 5 "FIST") "FIST" "FIST" 2
      (by decide) (by decide)⟩

/-- C6: (1) pushing a gesture that differs from every entry of the current
window (including UNKNOWN from an unknown classification or an absent hand)
leaves the debouncer unstable at that push and for the next
SMOOTHING_FRAMES - 2 pushes — SMOOTHING_FRAMES - 1 consecutive unstable
evaluations starting at the differing frame; (2) once at least
SMOOTHING_FRAMES gestures have been pushed, stability on g' forces the last
SMOOTHING_FRAMES pushed classifications to all equal g' with g' not
UNKNOWN: stability is only (re)gained after N consecutive identical
non-UNKNOWN classifications. -/
theorem differing_push_blocks_stability :
    (∀ (w : List String) (g : String) (xs : List String),
        w.length ≤ SMOOTHING_FRAMES → (∀ h ∈ w, h ≠ g) →
        xs.length < SMOOTHING_FRAMES - 1 →
        debounceStable (List.foldl pushWindow (pushWindow w g) xs) = none) ∧
    (∀ (w ys : List String) (g' : String),
        w.length ≤ SMOOTHING_FRAMES → SMOOTHING_FRAMES ≤ ys.length →
        debounceStable (List.foldl pushWindow w ys) = some g' →
        ys.drop (ys.length - SMOOTHING_FRAMES) =
          List.replicate SMOOTHING_FRAMES g' ∧ g' ≠ "UNKNOWN") := by
  constructor
  · intro w g xs hw hdiff hxs
    have hwin : List.foldl pushWindow (pushWindow w g) xs =
        lastN SMOOTHING_FRAMES (w ++ g :: xs) := by
      rw [foldl_pushWindow_eq xs (pushWindow w g) (pushWindow_length_le w g),
        pushWindow_eq_lastN, lastN_append_lastN]
      congr 1
      simp
    by_contra hne
    obtain ⟨g', hg'⟩ : ∃ g',
        debounceStable (List.foldl pushWindow (pushWindow w g) xs) = some g' := by
      cases hds : debounceStable (List.foldl pushWindow (pushWindow w g) xs) with
      | none => exact absurd hds hne
      | some g' => exact ⟨g', rfl⟩
    rw [hwin] at hg'
    have hlenle : (lastN SMOOTHING_FRAMES (w ++ g :: xs)).length ≤ SMOOTHING_FRAMES := by
      unfold lastN; rw [List.length_drop]; omega
    obtain ⟨hlen, hall, -⟩ := (debounceStable_eq_some_iff _ g' hlenle).mp hg'
    have hL : (w ++ g :: xs).length = w.length + 1 + xs.length := by
      simp [List.length_append]; omega
    have hwpos : 1 ≤ w.length := by
      unfold lastN at hlen; rw [List.length_drop] at hlen; omega
    have hdlt : (w ++ g :: xs).length - SMOOTHING_FRAMES < w.length := by omega
    have hsplit : lastN SMOOTHING_FRAMES (w ++ g :: xs) =
        w.drop ((w ++ g :: xs).length - SMOOTHING_FRAMES) ++ g :: xs := by
      unfold lastN
      rw [List.drop_append_eq_append_drop, Nat.sub_eq_zero_of_le (le_of_lt hdlt),
        List.drop_zero]
    have hne' : w.drop ((w ++ g :: xs).length - SMOOTHING_FRAMES) ≠ [] := by
      intro hnil
      have := congrArg List.length hnil
      rw [List.length_drop] at this
      simp at this
      omega
    obtain ⟨h0, hh0⟩ := List.exists_mem_of_ne_nil _ hne'
    have hh0w : h0 ∈ w := List.drop_subset _ _ hh0
    have hh0win : h0 ∈ lastN SMOOTHING_FRAMES (w ++ g :: xs) := by
      rw [hsplit]; exact List.mem_append_left _ hh0
    have hgwin : g ∈ lastN SMOOTHING_FRAMES (w ++ g :: xs) := by
      rw [hsplit]; exact List.mem_append_right _ (List.mem_cons_self g xs)
    have h1 := hall h0 hh0win
    have h2 := hall g hgwin
    exact hdiff h0 hh0w (h1.trans h2.symm)
  · intro w ys g' hw hys hst
    rw [foldl_pushWindow_eq ys w hw] at hst
    have hlenle : (lastN SMOOTHING_FRAMES (w ++ ys)).length ≤ SMOOTHING_FRAMES := by
      unfold lastN; rw [List.length_drop]; omega
    obtain ⟨hlen, hall, hgne⟩ := (debounceStable_eq_some_iff _ g' hlenle).mp hst
    refine ⟨?_, hgne⟩
    rw [lastN_append_right _ _ _ hys] at hlen hall
    have hrep : lastN SMOOTHING_FRAMES ys = List.replicate SMOOTHING_FRAMES g' :=
      List.eq_replicate_iff.mpr ⟨hlen, hall⟩
    unfold lastN at hrep
    exact hrep

/-- C7: for a present hand whose handedness label is Right or Left, the
extractor returns exactly the spec's vector — thumb extended iff
(Right and tip.x < joint.x) or (Left and tip.x > joint.x), each other
finger extended iff tip.y < pip.y — and, the comparisons being strict,
coordinate equality in any of the five comparisons yields 0 (not
extended). -/
theorem fingers_up_matches_spec (landmark : Nat → Landmark) (handedness_label : String)
    (hl : handedness_label = "Right" ∨ handedness_label = "Left") :
    fingers_up landmark handedness_label = fingersSpec landmark handedness_label ∧
    ((landmark 4).x = (landmark 3).x →
      (fingers_up landmark handedness_label).getD 0 9 = 0) ∧
    ((landmark 8).y = (landmark 6).y →
      (fingers_up landmark handedness_label).getD 1 9 = 0) ∧
    ((landmark 12).y = (landmark 10).y →
      (fingers_up landmark handedness_label).getD 2 9 = 0) ∧
    ((landmark 16).y = (landmark 14).y →
      (fingers_up landmark handedness_label).getD 3 9 = 0) ∧
    ((landmark 20).y = (landmark 18).y →
      (fingers_up landmark handedness_label).getD 4 9 = 0) := by
  rcases hl with rfl | rfl
  · refine ⟨?_, ?_, ?_, ?_, ?_, ?_⟩
    · simp [fingers_up, fingersSpec, TIP_IDS]
    · intro heq; simp [fingers_up, TIP_IDS, heq]
    · intro heq; simp [fingers_up, TIP_IDS, heq]
    · intro heq; simp [fingers_up, TIP_IDS, heq]
    · intro heq; simp [fingers_up, TIP_IDS, heq]
    · intro heq; simp [fingers_up, TIP_IDS, heq]
  · refine ⟨?_, ?_, ?_, ?_, ?_, ?_⟩
    · simp [fingers_up, fingersSpec, TIP_IDS]
    · intro heq; simp [fingers_up, TIP_IDS, heq]
    · intro heq; simp [fingers_up, TIP_IDS, heq]
    · intro heq; simp [fingers_up, TIP_IDS, heq]
    · intro heq; simp [fingers_up, TIP_IDS, heq]
    · intro heq; simp [fingers_up, TIP_IDS, heq]

/-- Witness for C7: the concrete right hand `lmW` matches the spec vector
and evaluates to the THUMB_UP pattern. -/
theorem fingers_up_matches_spec_witness :
    fingers_up lmW "Right" = fingersSpec lmW "Right" ∧
    fingers_up lmW "Right" = [1, 0, 0, 0, 0] :=
  ⟨(fingers_up_matches_spec lmW "Right" (Or.inl rfl)).1, by decide⟩

theorem detect_gesture_mem_labels (fingers : List Nat) :
    detect_gesture fingers ∈ gestureLabels := by
  unfold detect_gesture
  split_ifs <;> decide

theorem stepFrame_gesture_history (s : LoopState) (obs : HandObservation) (now : ℚ) :
    ∃ g, g ∈ gestureLabels ∧
      (stepFrame s obs now).1.gesture_history = pushWindow s.gesture_history g := by
  cases obs with
  | Absent => exact ⟨"UNKNOWN", by decide, rfl⟩
  | Present landmark label =>
      exact ⟨detect_gesture (fingers_up landmark label),
        detect_gesture_mem_labels _, stepGesture_gesture_history s _ now⟩

theorem runObs_labels (frames : List (HandObservation × ℚ)) :
    ∀ s : LoopState, (∀ x ∈ s.gesture_history, x ∈ gestureLabels) →
      ∀ x ∈ (runObs s frames).gesture_history, x ∈ gestureLabels := by
  induction frames with
  | nil => intro s hs; exact hs
  | cons f rest ih =>
    intro s hs
    have hstep : ∀ x ∈ (stepFrame s f.1 f.2).1.gesture_history, x ∈ gestureLabels := by
      obtain ⟨g, hg, hhist⟩ := stepFrame_gesture_history s f.1 f.2
      rw [hhist]
      intro x hx
      rcases pushWindow_mem _ _ _ hx with hxw | rfl
      · exact hs x hxw
      · exact hg
    exact ih (stepFrame s f.1 f.2).1 hstep

/-- C8: after any frame step from any state the debounce window holds at
most SMOOTHING_FRAMES entries; an absent-hand frame contributes exactly the
UNKNOWN label to the window (no third "no signal" category) and dispatches
nothing; and in every state reachable from the initial state every window
entry is one of the five gesture labels. -/
theorem window_invariant :
    (∀ (s : LoopState) (obs : HandObservation) (now : ℚ),
        (stepFrame s obs now).1.gesture_history.length ≤ SMOOTHING_FRAMES) ∧
    (∀ (s : LoopState) (now : ℚ),
        (stepFrame s HandObservation.Absent now).1.gesture_history =
          pushWindow s.gesture_history "UNKNOWN" ∧
        (stepFrame s HandObservation.Absent now).2 = none) ∧
    (∀ frames : List (HandObservation × ℚ),
        ∀ x ∈ (runObs initState frames).gesture_history, x ∈ gestureLabels) := by
  refine ⟨?_, ?_, ?_⟩
  · intro s obs now
    obtain ⟨g, -, hhist⟩ := stepFrame_gesture_history s obs now
    rw [hhist]
    exact pushWindow_length_le _ _
  · intro s now
    exact ⟨rfl, rfl⟩
  · intro frames
    refine runObs_labels frames initState ?_
    intro x hx
    simp [initState] at hx

/-- C9: a frame whose dispatch condition fails — the pushed window is not
stable, or the cooldown has not elapsed, or the window's most-common
gesture equals the last triggered one — leaves both last_action_time and
last_triggered exactly unchanged and dispatches nothing; in particular a
suppressed same-gesture frame does not refresh the cooldown timestamp. -/
theorem noop_frame_preserves_dispatch_state (s : LoopState) (g : String) (now : ℚ)
    (h : debounceStable (pushWindow s.gesture_history g) = none ∨
      ¬ ACTION_COOLDOWN < now - s.last_action_time ∨
      s.last_triggered = some (mostCommon (pushWindow s.gesture_history g)).1) :
    (stepGesture s g now).1.last_action_time = s.last_action_time ∧
    (stepGesture s g now).1.last_triggered = s.last_triggered ∧
    (stepGesture s g now).2 = none := by
  rcases stepGesture_spec s g now with hno | ⟨g', d, hst, hcool, hne, -, -, -, -⟩
  · exact hno
  · exfalso
    have hg' : (mostCommon (pushWindow s.gesture_history g)).1 = g' := by
      unfold debounceStable at hst
      split at hst
      next => exact Option.some.inj hst
      next => exact absurd hst (by simp)
    rcases h with h | h | h
    · rw [h] at hst; cases hst
    · exact h hcool
    · rw [hg'] at h
      exact hne h

/-- Witness for C9: an UNKNOWN frame into the fresh state at now = 100. -/
theorem noop_frame_witness :
    (debounceStable (pushWindow initState.gesture_history "UNKNOWN") = none ∨
      ¬ ACTION_COOLDOWN < (100 : ℚ) - initState.last_action_time ∨
      initState.last_triggered =
        some (mostCommon (pushWindow initState.gesture_history "UNKNOWN")).1) ∧
    ((stepGesture initState "UNKNOWN" 100).1.last_action_time = initState.last_action_time ∧
      (stepGesture initState "UNKNOWN" 100).1.last_triggered = initState.last_triggered ∧
      (stepGesture initState "UNKNOWN" 100).2 = none) :=
  ⟨Or.inl (by decide),
    noop_frame_preserves_dispatch_state initState "UNKNOWN" 100 (Or.inl (by decide))⟩

theorem stepObs_preserves_named (s : LoopState) (f : Option String × ℚ)
    (hs : s.last_triggered = none ∨
      ∃ g, s.last_triggered = some g ∧ g ∈ ["OPEN_PALM", "FIST", "THUMB_UP", "POINT"]) :
    (stepObs s f.1 f.2).1.last_triggered = none ∨
      ∃ g, (stepObs s f.1 f.2).1.last_triggered = some g ∧
        g ∈ ["OPEN_PALM", "FIST", "THUMB_UP", "POINT"] := by
  cases hf : f.1 with
  | none => exact hs
  | some g =>
    simp only [stepObs]
    rcases stepGesture_spec s g f.2 with ⟨-, hltr, -⟩ | ⟨g', d, -, -, -, hd, -, hltr, -⟩
    · rw [hltr]; exact hs
    · rw [hltr]
      exact Or.inr ⟨g', rfl, perform_action_mem g' d hd⟩

theorem stepObs_preserves_fired (s : LoopState) (f : Option String × ℚ)
    (hs : s.last_triggered ≠ none) : (stepObs s f.1 f.2).1.last_triggered ≠ none := by
  cases hf : f.1 with
  | none => exact hs
  | some g =>
    simp only [stepObs]
    rcases stepGesture_spec s g f.2 with ⟨-, hltr, -⟩ | ⟨g', d, -, -, -, -, -, hltr, -⟩
    · rw [hltr]; exact hs
    · rw [hltr]; exact Option.some_ne_none g'

theorem runFrames_state_append (a b : List (Option String × ℚ)) :
    ∀ s : LoopState, (runFrames s (a ++ b)).1 = (runFrames (runFrames s a).1 b).1 := by
  induction a with
  | nil => intro s; rfl
  | cons f rest ih => intro s; exact ih _

theorem runFrames_preserves_named (b : List (Option String × ℚ)) :
    ∀ s : LoopState,
      (s.last_triggered = none ∨
        ∃ g, s.last_triggered = some g ∧ g ∈ ["OPEN_PALM", "FIST", "THUMB_UP", "POINT"]) →
      ((runFrames s b).1.last_triggered = none ∨
        ∃ g, (runFrames s b).1.last_triggered = some g ∧
          g ∈ ["OPEN_PALM", "FIST", "THUMB_UP", "POINT"]) := by
  induction b with
  | nil => intro s hs; exact hs
  | cons f rest ih => intro s hs; exact ih _ (stepObs_preserves_named s f hs)

theorem runFrames_preserves_fired (b : List (Option String × ℚ)) :
    ∀ s : LoopState, s.last_triggered ≠ none →
      (runFrames s b).1.last_triggered ≠ none := by
  induction b with
  | nil => intro s hs; exact hs
  | cons f rest ih => intro s hs; exact ih _ (stepObs_preserves_fired s f hs)

/-- C10: in every state reachable from the initial state, last_triggered is
either unset or one of the four named gestures (so never UNKNOWN), because
dispatch state is mutated only when perform_action_for_gesture returns a
description, which happens exactly for those four; and once set it never
becomes unset over any continuation of the run. -/
theorem last_triggered_named_and_sticky :
    (∀ frames : List (Option String × ℚ),
        (runFrames initState frames).1.last_triggered = none ∨
        ∃ g, (runFrames initState frames).1.last_triggered = some g ∧
          g ∈ ["OPEN_PALM", "FIST", "THUMB_UP", "POINT"]) ∧
    (∀ frames more : List (Option String × ℚ),
        (runFrames initState frames).1.last_triggered ≠ none →
        (runFrames initState (frames ++ more)).1.last_triggered ≠ none) := by
  constructor
  · intro frames
    exact runFrames_preserves_named frames initState (Or.inl rfl)
  · intro frames more h
    rw [runFrames_state_append]
    exact runFrames_preserves_fired more _ h
